import Mathlib

/-!
Shallow embedding of the DECam crosstalk-table converter
(`makeCrosstalkDecam.py`): the per-line parsing phase of `readFile`, the
dictionary-accumulation phase, and the coefficient-matrix transformation
performed by `makeDetectorCrosstalk` before the entry is handed to the
external calibration writer.

Modelling choices: Python strings are `String` / `List Char`; Python dicts
are insertion-ordered association lists (`alookup`); numpy 2x2 float64
matrices are `Matrix2` over the exact decimal type `Dec` (the converter
stores parsed coefficients verbatim and never combines them
arithmetically, so exact decimal values are a faithful carrier and `0.0`
is exactly `Dec.zero`); Python exceptions are the `PyError` sum type,
raised in the statement order of the source.
-/

deriving instance DecidableEq for Except

/-- An exact decimal number with value `mant / 10 ^ exp`, the model of the
float64 values flowing through the converter.  Values are kept canonical
(`exp = 0`, or `mant` nonzero and not divisible by 10), so two `Dec`s are
structurally equal exactly when they denote the same number. -/
structure Dec where
  mant : Int
  exp : ℕ
deriving DecidableEq

/-- The float64 zero written by `np.zeros_like`. -/
def Dec.zero : Dec := ⟨0, 0⟩

/-- Canonicalize `m / 10 ^ e`: strip factors of 10 shared between mantissa
and exponent. -/
def Dec.canon : Int → ℕ → Dec
  | m, 0 => ⟨m, 0⟩
  | m, e + 1 =>
    if m = 0 then ⟨0, 0⟩
    else if m % 10 = 0 then Dec.canon (m / 10) e
    else ⟨m, e + 1⟩

/-- Build the canonical decimal with value `mant / 10 ^ f * 10 ^ ex`
(mantissa with `f` fractional digits, scaled by a base-10 exponent). -/
def mkDec (mant : Int) (f : ℕ) (ex : Int) : Dec :=
  if ex ≤ (f : Int) then Dec.canon mant ((f : Int) - ex).toNat
  else Dec.canon (mant * 10 ^ (ex - (f : Int)).toNat) 0

/-- Python `str.strip()` on a list of characters: drop whitespace from both
ends. -/
def pyStrip (cs : List Char) : List Char :=
  ((cs.dropWhile Char.isWhitespace).reverse.dropWhile Char.isWhitespace).reverse

/-- Helper for `pySplit`: walks the characters, accumulating the current
token in reverse. -/
def pySplitAux : List Char → List Char → List String
  | [], acc => if acc.isEmpty then [] else [String.mk acc.reverse]
  | c :: rest, acc =>
    if c.isWhitespace then
      if acc.isEmpty then pySplitAux rest []
      else String.mk acc.reverse :: pySplitAux rest []
    else
      pySplitAux rest (c :: acc)

/-- Python `str.split()` with no arguments: split on runs of whitespace,
producing no empty tokens. -/
def pySplit (cs : List Char) : List String := pySplitAux cs []

/-- Python dict lookup on an insertion-ordered association list (first
matching key wins; the converter never creates duplicate keys). -/
def alookup {α β : Type} [DecidableEq α] (k : α) : List (α × β) → Option β
  | [] => none
  | p :: ps => if p.1 = k then some p.2 else alookup k ps

/-- Numeric value of a digit string, most significant digit first. -/
def digitsToNat (cs : List Char) : ℕ :=
  cs.foldl (fun a c => 10 * a + (c.toNat - 48)) 0

/-- Signed integer value of the exponent part of a float literal (the
characters after `e`/`E`), or `none` if that part is malformed. -/
def expInt (cs : List Char) : Option Int :=
  match cs with
  | '+' :: r => if r ≠ [] ∧ r.all Char.isDigit then some (digitsToNat r : Int) else none
  | '-' :: r => if r ≠ [] ∧ r.all Char.isDigit then some (-(digitsToNat r : Int)) else none
  | r => if r ≠ [] ∧ r.all Char.isDigit then some (digitsToNat r : Int) else none

/-- Python's builtin `float()` on a decimal literal (optional sign, digits,
optional fraction, optional `e`/`E` exponent, surrounding whitespace
stripped), modelled with exact decimal values; `none` models the
`ValueError` raised on a malformed token. -/
def pyFloat (s : String) : Option Dec :=
  let cs := pyStrip s.toList
  let sgn : Int := match cs with | '-' :: _ => -1 | _ => 1
  let cs1 : List Char := match cs with | '-' :: r => r | '+' :: r => r | r => r
  let ip := cs1.takeWhile Char.isDigit
  let r1 := cs1.dropWhile Char.isDigit
  match r1 with
  | [] => if ip = [] then none else some (Dec.canon (sgn * (digitsToNat ip : Int)) 0)
  | '.' :: r2 =>
    let fp := r2.takeWhile Char.isDigit
    let r3 := r2.dropWhile Char.isDigit
    if ip = [] ∧ fp = [] then none
    else
      let mant : Int := sgn * ((digitsToNat ip * 10 ^ fp.length + digitsToNat fp : ℕ) : Int)
      match r3 with
      | [] => some (mkDec mant fp.length 0)
      | 'e' :: r4 => (expInt r4).map (fun ex => mkDec mant fp.length ex)
      | 'E' :: r4 => (expInt r4).map (fun ex => mkDec mant fp.length ex)
      | _ => none
  | 'e' :: r2 =>
    if ip = [] then none
    else (expInt r2).map (fun ex => mkDec (sgn * (digitsToNat ip : Int)) 0 ex)
  | 'E' :: r2 =>
    if ip = [] then none
    else (expInt r2).map (fun ex => mkDec (sgn * (digitsToNat ip : Int)) 0 ex)
  | _ => none

/-- A 2x2 numpy float matrix; `np.zeros_like([], shape=(2, 2))` (float64
zero matrix) and single-cell assignment are the only operations the
converter performs on it. -/
structure Matrix2 where
  m00 : Dec
  m01 : Dec
  m10 : Dec
  m11 : Dec
deriving DecidableEq

/-- The zero matrix `np.zeros_like([], shape=(2, 2))`. -/
def Matrix2.zero : Matrix2 := ⟨Dec.zero, Dec.zero, Dec.zero, Dec.zero⟩

/-- Cell read `m[i][j]`. -/
def Matrix2.get (m : Matrix2) (i j : ℕ) : Dec :=
  match i, j with
  | 0, 0 => m.m00
  | 0, 1 => m.m01
  | 1, 0 => m.m10
  | 1, 1 => m.m11
  | _, _ => Dec.zero

/-- Cell assignment `m[i][j] = v`; indices are always 0 or 1 in the
converter (values of `ampIndexMap`). -/
def Matrix2.set (m : Matrix2) (i j : ℕ) (v : Dec) : Matrix2 :=
  match i, j with
  | 0, 0 => { m with m00 := v }
  | 0, 1 => { m with m01 := v }
  | 1, 0 => { m with m10 := v }
  | 1, 1 => { m with m11 := v }
  | _, _ => m

/-- Matrix transpose, as numpy's `.transpose()` on a 2x2 array. -/
def Matrix2.transpose (m : Matrix2) : Matrix2 := ⟨m.m00, m.m10, m.m01, m.m11⟩

/-- Projection of the `lsst.daf.base.PropertyList` metadata object onto the
three keys this converter ever writes; a fresh `PropertyList()` has none of
them. -/
structure PropertyList where
  OBSTYPE : Option String
  DETECTOR : Option String
  DETECTOR_SERIAL : Option String
deriving DecidableEq

/-- The per-victim-detector dictionary built by `readFile` (the dictionary
format expected by `CrosstalkCalib.fromDict`); `DETECTOR` and
`DETECTOR_SERIAL` are the top-level keys, distinct from the metadata
ones. -/
structure DetEntry where
  metadata : PropertyList
  interChip : List (String × Matrix2)
  crosstalkShape : ℕ × ℕ
  hasCrosstalk : Bool
  nAmp : ℕ
  coeffs : Matrix2
  DETECTOR : Option String
  DETECTOR_SERIAL : Option String
deriving DecidableEq

/-- The output dictionary of `readFile`, keyed on canonical victim
detector names, in insertion order. -/
abbrev OutDict := List (String × DetEntry)

/-- Python exceptions the converter raises while parsing. -/
inductive PyError where
  /-- IndexError "list index out of range": fewer than three whitespace
  tokens on a processed line. -/
  | indexError : PyError
  /-- ValueError from `float()` on the third token. -/
  | valueError : String → PyError
  /-- RuntimeError "Unknown amp": the token contains neither A nor B. -/
  | unknownAmp : String → PyError
  /-- KeyError from `detMap[...]`: detector label absent from the map. -/
  | keyError : String → PyError
deriving DecidableEq

/-- Amp letter to matrix index (`ampIndexMap` in the source). -/
def ampIndexMap : List (Char × ℕ) := [('A', 0), ('B', 1)]

/-- The fixed 62-entry vendor-to-canonical detector name map (`detMap` in
the source). -/
def detMap : List (String × String) :=
  [("ccd01", "S29"), ("ccd02", "S30"), ("ccd03", "S31"), ("ccd04", "S25"), ("ccd05", "S26"),
   ("ccd06", "S27"), ("ccd07", "S28"), ("ccd08", "S20"), ("ccd09", "S21"), ("ccd10", "S22"),
   ("ccd11", "S23"), ("ccd12", "S24"), ("ccd13", "S14"), ("ccd14", "S15"), ("ccd15", "S16"),
   ("ccd16", "S17"), ("ccd17", "S18"), ("ccd18", "S19"), ("ccd19", "S8"), ("ccd20", "S9"),
   ("ccd21", "S10"), ("ccd22", "S11"), ("ccd23", "S12"), ("ccd24", "S13"), ("ccd25", "S1"),
   ("ccd26", "S2"), ("ccd27", "S3"), ("ccd28", "S4"), ("ccd29", "S5"), ("ccd30", "S6"),
   ("ccd31", "S7"), ("ccd32", "N1"), ("ccd33", "N2"), ("ccd34", "N3"), ("ccd35", "N4"),
   ("ccd36", "N5"), ("ccd37", "N6"), ("ccd38", "N7"), ("ccd39", "N8"), ("ccd40", "N9"),
   ("ccd41", "N10"), ("ccd42", "N11"), ("ccd43", "N12"), ("ccd44", "N13"), ("ccd45", "N14"),
   ("ccd46", "N15"), ("ccd47", "N16"), ("ccd48", "N17"), ("ccd49", "N18"), ("ccd50", "N19"),
   ("ccd51", "N20"), ("ccd52", "N21"), ("ccd53", "N22"), ("ccd54", "N23"), ("ccd55", "N24"),
   ("ccd56", "N25"), ("ccd57", "N26"), ("ccd58", "N27"), ("ccd59", "N28"), ("ccd60", "N29"),
   ("ccd61", "N30"), ("ccd62", "N31")]

/-- Amp-letter detection for one detector-amp token, exactly as the two
identical if/elif blocks of the source (lines 76-88): membership test for
the character A first, then B, else RuntimeError "Unknown amp". -/
def ampOf (tok : String) : Except PyError Char :=
  if tok.toList.contains 'A' then .ok 'A'
  else if tok.toList.contains 'B' then .ok 'B'
  else .error (.unknownAmp tok)

/-- Python `tok.replace(amp, "")` for a one-character needle: remove every
occurrence of the amp letter. -/
def stripAmp (tok : String) (amp : Char) : String :=
  String.mk (tok.toList.filter (fun c => c ≠ amp))

/-- One parsed input line: both endpoints decoded and the coefficient
converted. -/
structure CrosstalkRecord where
  victimDet : String
  sourceDet : String
  victimAmp : ℕ
  sourceAmp : ℕ
  coeff : Dec
deriving DecidableEq

/-- The per-line parsing phase of `readFile`, in source statement order:
strip, comment test, token extraction (`elem[0]`, `elem[1]`,
`float(elem[2])`), amp detection for both tokens, amp-letter stripping,
`detMap` lookups, `ampIndexMap` lookups.  Returns `.ok none` for a comment
line (skipped), the first raised error otherwise, or the parsed record.
No write to the output dictionary happens in this phase. -/
def parseLine (line : String) : Except PyError (Option CrosstalkRecord) :=
  let li := pyStrip line.toList
  match li with
  | '#' :: _ => .ok none
  | _ =>
    let elem := pySplit li
    match elem.get? 0 with
    | none => .error .indexError
    | some victimDetAmp =>
      match elem.get? 1 with
      | none => .error .indexError
      | some sourceDetAmp =>
        match elem.get? 2 with
        | none => .error .indexError
        | some ctok =>
          match pyFloat ctok with
          | none => .error (.valueError ctok)
          | some coeff =>
            match ampOf victimDetAmp with
            | .error e => .error e
            | .ok victimAmpC =>
              match ampOf sourceDetAmp with
              | .error e => .error e
              | .ok sourceAmpC =>
                match alookup (stripAmp victimDetAmp victimAmpC) detMap with
                | none => .error (.keyError (stripAmp victimDetAmp victimAmpC))
                | some victimDet =>
                  match alookup (stripAmp sourceDetAmp sourceAmpC) detMap with
                  | none => .error (.keyError (stripAmp sourceDetAmp sourceAmpC))
                  | some sourceDet =>
                    match alookup victimAmpC ampIndexMap with
                    | none => .error (.keyError (String.mk [victimAmpC]))
                    | some victimAmp =>
                      match alookup sourceAmpC ampIndexMap with
                      | none => .error (.keyError (String.mk [sourceAmpC]))
                      | some sourceAmp =>
                        .ok (some ⟨victimDet, sourceDet, victimAmp, sourceAmp, coeff⟩)

/-- The fresh dictionary installed on first encounter of a victim detector
(source lines 98-109): fresh `PropertyList()` with only OBSTYPE set, empty
inter-chip dict, shape (2, 2), `hasCrosstalk = True`, `nAmp = 2`, and the
zero coefficient matrix (the `'coeffs' not in` guard in the source is
always true at creation time). -/
def initEntry : DetEntry where
  metadata := { OBSTYPE := some "CROSSTALK", DETECTOR := none, DETECTOR_SERIAL := none }
  interChip := []
  crosstalkShape := (2, 2)
  hasCrosstalk := true
  nAmp := 2
  coeffs := Matrix2.zero
  DETECTOR := none
  DETECTOR_SERIAL := none

/-- In-place mutation of the entry stored under key `k` (Python mutates
the dict value; insertion order is unchanged). -/
def updEntry (d : OutDict) (k : String) (f : DetEntry → DetEntry) : OutDict :=
  d.map (fun p => if p.1 = k then (p.1, f p.2) else p)

/-- Lazy creation of `interChip[sourceDet]` followed by the cell write
(source lines 116-119). -/
def interSet (ic : List (String × Matrix2)) (s : String) (i j : ℕ) (v : Dec) :
    List (String × Matrix2) :=
  let ic1 :=
    match alookup s ic with
    | some _ => ic
    | none => ic ++ [(s, Matrix2.zero)]
  ic1.map (fun p => if p.1 = s then (p.1, p.2.set i j v) else p)

/-- The self branch of the classification (source lines 111-115): set the
DETECTOR metadata keys and the top-level DETECTOR keys, and write the
coefficient into the self matrix. -/
def selfWrite (v : String) (i j : ℕ) (c : Dec) (e : DetEntry) : DetEntry :=
  { e with
    metadata := { e.metadata with
      DETECTOR := some v
      DETECTOR_SERIAL := some "UNKNOWN" }
    DETECTOR := some v
    DETECTOR_SERIAL := some "UNKNOWN"
    coeffs := e.coeffs.set i j c }

/-- The inter-chip branch of the classification (source lines 116-119):
lazily create and write `interChip[s]`. -/
def interWrite (s : String) (i j : ℕ) (c : Dec) (e : DetEntry) : DetEntry :=
  { e with interChip := interSet e.interChip s i j c }

/-- The dictionary-update phase of `readFile` for one parsed record
(source lines 98-119): ensure the victim entry exists, then either the
self branch or the inter-chip branch on the victim's entry. -/
def applyRecord (d : OutDict) (r : CrosstalkRecord) : OutDict :=
  let d1 : OutDict :=
    match alookup r.victimDet d with
    | some _ => d
    | none => d ++ [(r.victimDet, initEntry)]
  if r.sourceDet = r.victimDet then
    updEntry d1 r.victimDet (selfWrite r.victimDet r.victimAmp r.sourceAmp r.coeff)
  else
    updEntry d1 r.victimDet (interWrite r.sourceDet r.victimAmp r.sourceAmp r.coeff)

/-- Processing of one line of the input file: parse, then apply; a comment
line leaves the dictionary unchanged. -/
def processLine (d : OutDict) (line : String) : Except PyError OutDict :=
  match parseLine line with
  | .error e => .error e
  | .ok none => .ok d
  | .ok (some r) => .ok (applyRecord d r)

/-- The loop of `readFile` over the file's lines starting from dictionary
`d`.  A raised exception aborts the loop; the error value carries
`outDict` as it stands at the moment the exception is raised. -/
def readFileAux (d : OutDict) : List String → Except (PyError × OutDict) OutDict
  | [] => .ok d
  | l :: ls =>
    match processLine d l with
    | .error e => .error (e, d)
    | .ok d1 => readFileAux d1 ls

/-- The converter's `readFile`, applied to the file's list of lines. -/
def readFile (lines : List String) : Except (PyError × OutDict) OutDict :=
  readFileAux [] lines

/-- The data transformation `makeDetectorCrosstalk` performs on an entry
before handing it to the external `CrosstalkCalib.fromDict` constructor:
the single statement `dataDict['coeffs'] = dataDict['coeffs'].transpose()`
(construction, timestamping and the FITS write are external framework
calls). -/
def makeDetectorCrosstalk (e : DetEntry) : DetEntry :=
  { e with coeffs := e.coeffs.transpose }

/-- Observer: the stored coefficient for (victim `v`, source `s`,
victim amp `i`, source amp `j`) in the accumulated dictionary — the self
matrix cell when `s = v`, the inter-chip cell otherwise; `none` when the
entry or inter-chip matrix does not exist. -/
def cellO (d : OutDict) (v s : String) (i j : ℕ) : Option Dec :=
  (alookup v d).bind (fun e =>
    if s = v then some (e.coeffs.get i j)
    else (alookup s e.interChip).map (fun m => m.get i j))

/-- Does record `r` address the coefficient cell (victim `v`, source `s`,
victim amp `i`, source amp `j`)? -/
def targetsB (r : CrosstalkRecord) (v s : String) (i j : ℕ) : Bool :=
  r.victimDet == v && r.sourceDet == s && r.victimAmp == i && r.sourceAmp == j

/-- Modelled from the spec's words, for comparison with `ampOf`: the amp
label given by the first occurrence of "A" or "B" in left-to-right scan
order. -/
def specAmpFirstScan (tok : String) : Option Char :=
  tok.toList.find? (fun c => c == 'A' || c == 'B')

theorem Matrix2.get_zero (i j : ℕ) : Matrix2.zero.get i j = Dec.zero := by
  rcases i with _ | _ | i <;> rcases j with _ | _ | j <;> rfl

theorem Matrix2.get_set_self (m : Matrix2) (v : Dec) {i j : ℕ} (hi : i < 2) (hj : j < 2) :
    (m.set i j v).get i j = v := by
  rcases i with _ | _ | i <;> rcases j with _ | _ | j <;> first | rfl | omega

theorem Matrix2.get_set_ne (m : Matrix2) (v : Dec) {i j i' j' : ℕ} (h : i ≠ i' ∨ j ≠ j') :
    (m.set i j v).get i' j' = m.get i' j' := by
  rcases i with _ | _ | i <;> rcases j with _ | _ | j <;> rcases i' with _ | _ | i' <;>
    rcases j' with _ | _ | j' <;> first | rfl | simp_all

theorem Matrix2.get_transpose (m : Matrix2) (i j : Fin 2) :
    m.transpose.get i j = m.get j i := by
  fin_cases i <;> fin_cases j <;> rfl

theorem Dec.canon_value (m : Int) (e : ℕ) :
    ((Dec.canon m e).mant : ℚ) / 10 ^ (Dec.canon m e).exp = (m : ℚ) / 10 ^ e := by
  induction e generalizing m with
  | zero => rfl
  | succ e ih =>
    by_cases h0 : m = 0
    · subst h0
      simp [Dec.canon]
    · by_cases hm : m % 10 = 0
      · have h10 : (10 : Int) ∣ m := Int.dvd_of_emod_eq_zero hm
        obtain ⟨k, hk⟩ := h10
        subst hk
        rw [show Dec.canon (10 * k) (e + 1) = Dec.canon (10 * k / 10) e by
          simp [Dec.canon, h0, hm]]
        rw [Int.mul_ediv_cancel_left k (by norm_num), ih k]
        push_cast
        rw [pow_succ]
        rw [div_eq_div_iff (by positivity) (by positivity)]
        ring
      · simp [Dec.canon, h0, hm]

theorem alookup_append_of_ne {α β : Type} [DecidableEq α] (d : List (α × β)) (k v : α)
    (e : β) (h : v ≠ k) : alookup v (d ++ [(k, e)]) = alookup v d := by
  induction d with
  | nil => simp [alookup, Ne.symm h]
  | cons p ps ih => by_cases hp : p.1 = v <;> simp [alookup, hp, ih]

theorem alookup_append_self {α β : Type} [DecidableEq α] (d : List (α × β)) (k : α) (e : β)
    (h : alookup k d = none) : alookup k (d ++ [(k, e)]) = some e := by
  induction d with
  | nil => simp [alookup]
  | cons p ps ih =>
    unfold alookup at h ⊢
    by_cases hp : p.1 = k
    · simp [hp] at h
    · simpa [hp] using ih (by simpa [hp] using h)

theorem alookup_mapUpd_self {α β : Type} [DecidableEq α] (l : List (α × β)) (k : α)
    (f : β → β) :
    alookup k (l.map fun p => if p.1 = k then (p.1, f p.2) else p) = (alookup k l).map f := by
  induction l with
  | nil => rfl
  | cons p ps ih => by_cases hp : p.1 = k <;> simp [alookup, hp, ih]

theorem alookup_mapUpd_ne {α β : Type} [DecidableEq α] (l : List (α × β)) (k v : α)
    (f : β → β) (h : v ≠ k) :
    alookup v (l.map fun p => if p.1 = k then (p.1, f p.2) else p) = alookup v l := by
  induction l with
  | nil => rfl
  | cons p ps ih =>
    by_cases hp : p.1 = k
    · simp [alookup, hp, Ne.symm h, ih]
    · by_cases hv : p.1 = v <;> simp [alookup, hp, hv, h, ih]

theorem alookup_updEntry_self (d : OutDict) (k : String) (f : DetEntry → DetEntry) :
    alookup k (updEntry d k f) = (alookup k d).map f :=
  alookup_mapUpd_self d k f

theorem alookup_updEntry_ne (d : OutDict) (k v : String) (f : DetEntry → DetEntry)
    (h : v ≠ k) : alookup v (updEntry d k f) = alookup v d :=
  alookup_mapUpd_ne d k v f h

theorem alookup_interSet_self (ic : List (String × Matrix2)) (s : String) (i j : ℕ)
    (v : Dec) :
    alookup s (interSet ic s i j v) = some (((alookup s ic).getD Matrix2.zero).set i j v) := by
  unfold interSet
  cases h : alookup s ic with
  | some m => simpa [h] using alookup_mapUpd_self ic s (fun m => m.set i j v) |>.trans (by simp [h])
  | none =>
    simp only [h]
    rw [alookup_mapUpd_self (ic ++ [(s, Matrix2.zero)]) s (fun m => m.set i j v),
      alookup_append_self ic s Matrix2.zero h]
    rfl

theorem alookup_interSet_ne (ic : List (String × Matrix2)) (s t : String) (i j : ℕ)
    (v : Dec) (h : t ≠ s) : alookup t (interSet ic s i j v) = alookup t ic := by
  unfold interSet
  cases hl : alookup s ic with
  | some m => simpa [hl] using alookup_mapUpd_ne ic s t (fun m => m.set i j v) h
  | none =>
    simp only [hl]
    rw [alookup_mapUpd_ne (ic ++ [(s, Matrix2.zero)]) s t (fun m => m.set i j v) h,
      alookup_append_of_ne ic s t Matrix2.zero h]

theorem alookup_applyRecord_victim (d : OutDict) (r : CrosstalkRecord) :
    alookup r.victimDet (applyRecord d r) =
      some ((if r.sourceDet = r.victimDet then
              selfWrite r.victimDet r.victimAmp r.sourceAmp r.coeff
            else
              interWrite r.sourceDet r.victimAmp r.sourceAmp r.coeff)
          ((alookup r.victimDet d).getD initEntry)) := by
  unfold applyRecord
  cases h : alookup r.victimDet d with
  | some e => by_cases hb : r.sourceDet = r.victimDet <;>
      simp [hb, alookup_updEntry_self, h]
  | none => by_cases hb : r.sourceDet = r.victimDet <;>
      simp [hb, alookup_updEntry_self, alookup_append_self _ _ _ h, h]

theorem alookup_applyRecord_ne (d : OutDict) (r : CrosstalkRecord) (v : String)
    (h : v ≠ r.victimDet) : alookup v (applyRecord d r) = alookup v d := by
  unfold applyRecord
  cases hl : alookup r.victimDet d with
  | some e => by_cases hb : r.sourceDet = r.victimDet <;>
      simp [hb, alookup_updEntry_ne _ _ _ _ h]
  | none => by_cases hb : r.sourceDet = r.victimDet <;>
      simp [hb, alookup_updEntry_ne _ _ _ _ h, alookup_append_of_ne _ _ _ _ h]

theorem alookup_ampIndexMap_lt {c : Char} {n : ℕ} (h : alookup c ampIndexMap = some n) :
    n < 2 := by
  simp only [ampIndexMap, alookup] at h
  split_ifs at h <;> simp_all <;> omega

theorem parseLine_amp_lt {line : String} {r : CrosstalkRecord}
    (h : parseLine line = .ok (some r)) : r.victimAmp < 2 ∧ r.sourceAmp < 2 := by
  unfold parseLine at h
  simp only [] at h
  repeat' split at h
  all_goals cases h
  exact ⟨alookup_ampIndexMap_lt (by assumption), alookup_ampIndexMap_lt (by assumption)⟩

theorem processLine_ok_inv {d : OutDict} {l : String} {d' : OutDict}
    (h : processLine d l = .ok d') :
    (parseLine l = .ok none ∧ d' = d) ∨
      ∃ r, parseLine l = .ok (some r) ∧ d' = applyRecord d r := by
  cases hp : parseLine l with
  | error e => simp [processLine, hp] at h
  | ok o =>
    cases o with
    | none =>
      simp only [processLine, hp] at h
      exact Or.inl ⟨rfl, by injection h with h; exact h.symm⟩
    | some r =>
      simp only [processLine, hp] at h
      exact Or.inr ⟨r, rfl, by injection h with h; exact h.symm⟩

theorem readFileAux_nil (d : OutDict) : readFileAux d [] = .ok d := rfl

theorem readFileAux_cons (d : OutDict) (l : String) (ls : List String) :
    readFileAux d (l :: ls) =
      match processLine d l with
      | .error e => .error (e, d)
      | .ok d1 => readFileAux d1 ls := rfl

theorem readFileAux_append_ok {xs : List String} {d₀ d1 : OutDict}
    (h : readFileAux d₀ xs = .ok d1) (ys : List String) :
    readFileAux d₀ (xs ++ ys) = readFileAux d1 ys := by
  induction xs generalizing d₀ with
  | nil =>
    rw [readFileAux_nil] at h
    injection h with h
    rw [List.nil_append, h]
  | cons l ls ih =>
    rw [readFileAux_cons] at h
    rw [List.cons_append, readFileAux_cons]
    cases hp : processLine d₀ l with
    | error e => simp [hp] at h
    | ok d2 =>
      simp only [hp] at h ⊢
      exact ih h

theorem readFileAux_inv (Q : OutDict → Prop) :
    ∀ (ls : List String) (d₀ d : OutDict),
      readFileAux d₀ ls = .ok d →
      (∀ d1 l d2, l ∈ ls → processLine d1 l = .ok d2 → Q d1 → Q d2) →
      Q d₀ → Q d := by
  intro ls
  induction ls with
  | nil =>
    intro d₀ d h _ hq
    rw [readFileAux_nil] at h
    injection h with h
    exact h ▸ hq
  | cons l ls ih =>
    intro d₀ d h hstep hq
    rw [readFileAux_cons] at h
    cases hp : processLine d₀ l with
    | error e => simp [hp] at h
    | ok d1 =>
      simp only [hp] at h
      exact ih d1 d h (fun d1' l' d2' hm => hstep d1' l' d2' (List.mem_cons_of_mem _ hm))
        (hstep d₀ l d1 (List.mem_cons_self _ _) hp hq)

theorem cellO_applyRecord_target (d : OutDict) (r : CrosstalkRecord) (v s : String)
    (i j : ℕ) (ht : targetsB r v s i j = true) (hva : r.victimAmp < 2)
    (hsa : r.sourceAmp < 2) :
    cellO (applyRecord d r) v s i j = some r.coeff := by
  obtain ⟨⟨hv, hs⟩, hi, hj⟩ :
      (r.victimDet = v ∧ r.sourceDet = s) ∧ r.victimAmp = i ∧ r.sourceAmp = j := by
    simpa [targetsB, Bool.and_eq_true, beq_iff_eq, and_assoc] using ht
  subst hv hs hi hj
  unfold cellO
  rw [alookup_applyRecord_victim]
  by_cases hb : r.sourceDet = r.victimDet
  · simp [hb, selfWrite, Matrix2.get_set_self _ _ hva hsa]
  · simp [hb, interWrite, alookup_interSet_self, Matrix2.get_set_self _ _ hva hsa]

theorem cellO_applyRecord_preserved (d : OutDict) (r : CrosstalkRecord) (v s : String)
    (i j : ℕ) (ht : targetsB r v s i j = false) :
    cellO (applyRecord d r) v s i j = cellO d v s i j ∨
      (cellO d v s i j = none ∧ cellO (applyRecord d r) v s i j = some Dec.zero) := by
  by_cases hv : r.victimDet = v
  case neg =>
    left
    unfold cellO
    rw [alookup_applyRecord_ne _ _ _ (fun h => hv h.symm)]
  case pos =>
    subst hv
    have ht' : ¬(r.sourceDet = s ∧ r.victimAmp = i ∧ r.sourceAmp = j) := by
      rintro ⟨h1, h2, h3⟩
      simp [targetsB, h1, h2, h3] at ht
    unfold cellO
    rw [alookup_applyRecord_victim]
    by_cases hb : r.sourceDet = r.victimDet
    · by_cases hsv : s = r.victimDet
      · have hij : r.victimAmp ≠ i ∨ r.sourceAmp ≠ j := by
          by_contra hc
          push_neg at hc
          exact ht' ⟨hb.trans hsv.symm, hc.1, hc.2⟩
        cases he : alookup r.victimDet d with
        | some e => left; simp [hb, hsv, he, selfWrite, Matrix2.get_set_ne _ _ hij]
        | none =>
          right
          refine ⟨by simp [he], ?_⟩
          simp [hb, hsv, he, selfWrite, initEntry, Matrix2.get_set_ne _ _ hij,
            Matrix2.get_zero]
      · cases he : alookup r.victimDet d with
        | some e => left; simp [hb, hsv, he, selfWrite]
        | none => left; simp [hb, hsv, he, selfWrite, initEntry, alookup]
    · by_cases hsv : s = r.victimDet
      · cases he : alookup r.victimDet d with
        | some e => left; simp [hb, hsv, he, interWrite]
        | none =>
          right
          exact ⟨by simp [he], by simp [hb, hsv, he, interWrite, initEntry, Matrix2.get_zero]⟩
      · by_cases hss : r.sourceDet = s
        · have hij : r.victimAmp ≠ i ∨ r.sourceAmp ≠ j := by
            by_contra hc
            push_neg at hc
            exact ht' ⟨hss, hc.1, hc.2⟩
          subst hss
          cases he : alookup r.victimDet d with
          | some e =>
            cases hm : alookup r.sourceDet e.interChip with
            | some m =>
              left
              simp [hb, hsv, he, hm, interWrite, alookup_interSet_self,
                Matrix2.get_set_ne _ _ hij]
            | none =>
              right
              refine ⟨by simp [he, hsv, hm], ?_⟩
              simp [hb, hsv, he, hm, interWrite, alookup_interSet_self,
                Matrix2.get_set_ne _ _ hij, Matrix2.get_zero]
          | none =>
            right
            refine ⟨by simp [he], ?_⟩
            simp [hb, hsv, he, interWrite, initEntry, alookup, alookup_interSet_self,
              Matrix2.get_set_ne _ _ hij, Matrix2.get_zero]
        · have hss' : s ≠ r.sourceDet := fun h => hss h.symm
          cases he : alookup r.victimDet d with
          | some e =>
            left
            simp [hb, hsv, hss, he, interWrite, alookup_interSet_ne _ _ _ _ _ _ hss']
          | none =>
            left
            simp [hb, hsv, hss, he, interWrite, initEntry,
              alookup_interSet_ne _ _ _ _ _ _ hss', alookup]

theorem cellO_processLine_target {d : OutDict} {l : String} {d' : OutDict}
    {r : CrosstalkRecord} {v s : String} {i j : ℕ}
    (hp : processLine d l = .ok d') (hr : parseLine l = .ok (some r))
    (ht : targetsB r v s i j = true) :
    cellO d' v s i j = some r.coeff := by
  obtain ⟨hva, hsa⟩ := parseLine_amp_lt hr
  rcases processLine_ok_inv hp with ⟨hn, _⟩ | ⟨r', hr', rfl⟩
  · have := hr.symm.trans hn
    simp at this
  · have hrr : r' = r := by
      have := hr.symm.trans hr'
      simpa using this.symm
    subst hrr
    exact cellO_applyRecord_target d r' v s i j ht hva hsa

theorem cellO_fold_preserved :
    ∀ (ls : List String) (d₀ d : OutDict) (v s : String) (i j : ℕ),
      readFileAux d₀ ls = .ok d →
      (∀ l ∈ ls, ∀ r, parseLine l = .ok (some r) → targetsB r v s i j = false) →
      cellO d v s i j = cellO d₀ v s i j ∨
        (cellO d₀ v s i j = none ∧ cellO d v s i j = some Dec.zero) := by
  intro ls
  induction ls with
  | nil =>
    intro d₀ d v s i j h _
    rw [readFileAux_nil] at h
    injection h with h
    subst h
    left
    rfl
  | cons l ls ih =>
    intro d₀ d v s i j h hnt
    rw [readFileAux_cons] at h
    cases hp : processLine d₀ l with
    | error e => simp [hp] at h
    | ok d1 =>
      simp only [hp] at h
      have step : cellO d1 v s i j = cellO d₀ v s i j ∨
          (cellO d₀ v s i j = none ∧ cellO d1 v s i j = some Dec.zero) := by
        rcases processLine_ok_inv hp with ⟨_, rfl⟩ | ⟨r, hr, rfl⟩
        · left; rfl
        · exact cellO_applyRecord_preserved d₀ r v s i j (hnt l (List.mem_cons_self _ _) r hr)
      have rest := ih d1 d v s i j h (fun l' hm r hr => hnt l' (List.mem_cons_of_mem _ hm) r hr)
      rcases step with hstep | ⟨h0, hstep⟩
      · rcases rest with hrest | ⟨h1, hrest⟩
        · left; rw [hrest, hstep]
        · rw [hstep] at h1
          right
          exact ⟨h1, hrest⟩
      · rcases rest with hrest | ⟨h1, hrest⟩
        · right; exact ⟨h0, hrest.trans hstep⟩
        · rw [hstep] at h1
          cases h1

theorem readFileAux_append_error {xs : List String} {d₀ : OutDict} {e : PyError × OutDict}
    (h : readFileAux d₀ xs = .error e) (ys : List String) :
    readFileAux d₀ (xs ++ ys) = .error e := by
  induction xs generalizing d₀ with
  | nil => rw [readFileAux_nil] at h; cases h
  | cons l ls ih =>
    rw [readFileAux_cons] at h
    rw [List.cons_append, readFileAux_cons]
    cases hp : processLine d₀ l with
    | error e1 => simp only [hp] at h ⊢; exact h
    | ok d2 =>
      simp only [hp] at h ⊢
      exact ih h

theorem readFileAux_split {xs ys : List String} {d₀ d : OutDict}
    (h : readFileAux d₀ (xs ++ ys) = .ok d) :
    ∃ d1, readFileAux d₀ xs = .ok d1 ∧ readFileAux d1 ys = .ok d := by
  cases hx : readFileAux d₀ xs with
  | error e => rw [readFileAux_append_error hx] at h; cases h
  | ok d1 => rw [readFileAux_append_ok hx] at h; exact ⟨d1, rfl, h⟩

theorem parseLine_residual {line vTok sTok cTok : String}
    (hh : (pyStrip line.toList).head? ≠ some '#')
    (h0 : (pySplit (pyStrip line.toList)).get? 0 = some vTok)
    (h1 : (pySplit (pyStrip line.toList)).get? 1 = some sTok)
    (h2 : (pySplit (pyStrip line.toList)).get? 2 = some cTok) :
    parseLine line =
      match pyFloat cTok with
      | none => .error (.valueError cTok)
      | some coeff =>
        match ampOf vTok with
        | .error e => .error e
        | .ok vC =>
          match ampOf sTok with
          | .error e => .error e
          | .ok sC =>
            match alookup (stripAmp vTok vC) detMap with
            | none => .error (.keyError (stripAmp vTok vC))
            | some vDet =>
              match alookup (stripAmp sTok sC) detMap with
              | none => .error (.keyError (stripAmp sTok sC))
              | some sDet =>
                match alookup vC ampIndexMap with
                | none => .error (.keyError (String.mk [vC]))
                | some vA =>
                  match alookup sC ampIndexMap with
                  | none => .error (.keyError (String.mk [sC]))
                  | some sA => .ok (some ⟨vDet, sDet, vA, sA, coeff⟩) := by
  unfold parseLine
  simp only []
  cases hli : pyStrip line.toList with
  | nil =>
    rw [hli] at h0
    simp [pySplit, pySplitAux] at h0
  | cons ch cs =>
    rw [hli] at h0 h1 h2
    split
    · next tail heq =>
      rw [hli.trans heq] at hh
      simp at hh
    · simp only [h0, h1, h2]

/-- C1: classification of every parsed input record: when the decoded
victim and source detectors coincide, the coefficient is written into that
victim's self matrix at [victimAmp][sourceAmp] and its interChip map is
left exactly as it was (empty if the entry was just created); when they
differ, the coefficient lands in interChip[sourceDet] at the same indices
and the self matrix is left exactly as it was (zero if just created) —
never both, never the wrong one. -/
theorem crosstalk_classification :
    ∀ (d : OutDict) (line : String) (r : CrosstalkRecord),
      parseLine line = .ok (some r) →
      ((r.sourceDet = r.victimDet →
        (alookup r.victimDet (applyRecord d r)).map
            (fun e => e.coeffs.get r.victimAmp r.sourceAmp) = some r.coeff ∧
        (alookup r.victimDet (applyRecord d r)).map DetEntry.interChip =
          some (((alookup r.victimDet d).map DetEntry.interChip).getD [])) ∧
      (r.sourceDet ≠ r.victimDet →
        ((alookup r.victimDet (applyRecord d r)).bind
            (fun e => alookup r.sourceDet e.interChip)).map
            (fun m => m.get r.victimAmp r.sourceAmp) = some r.coeff ∧
        (alookup r.victimDet (applyRecord d r)).map DetEntry.coeffs =
          some (((alookup r.victimDet d).map DetEntry.coeffs).getD Matrix2.zero))) := by
  intro d line r hr
  obtain ⟨hva, hsa⟩ := parseLine_amp_lt hr
  constructor
  · intro hb
    rw [alookup_applyRecord_victim]
    constructor
    · simp [hb, selfWrite, Matrix2.get_set_self _ _ hva hsa]
    · cases he : alookup r.victimDet d <;> simp [hb, he, selfWrite, initEntry]
  · intro hb
    rw [alookup_applyRecord_victim]
    constructor
    · simp [hb, interWrite, alookup_interSet_self, Matrix2.get_set_self _ _ hva hsa]
    · cases he : alookup r.victimDet d <;> simp [hb, he, interWrite, initEntry]

/-- Witness for C1 at the concrete self record parsed from
"ccd01A ccd01B 0.0012" applied to the empty dictionary. -/
theorem crosstalk_classification_witness :
    (alookup "S29" (applyRecord []
        ({ victimDet := "S29", sourceDet := "S29", victimAmp := 0, sourceAmp := 1,
           coeff := ⟨12, 4⟩ } : CrosstalkRecord))).map
      (fun e => e.coeffs.get 0 1) = some ⟨12, 4⟩ :=
  ((crosstalk_classification [] "ccd01A ccd01B 0.0012" ⟨"S29", "S29", 0, 1, ⟨12, 4⟩⟩
      (by decide)).1 rfl).1

/-- C2: for the three-line file (ccd01A ccd01B 0.0012 / ccd01B ccd01A
0.0009 / ccd01A ccd02B 0.0003), the entry for victim S29 has self matrix
[[0, 0.0012], [0.0009, 0]], interChip S30 equal to [[0, 0.0003], [0, 0]],
hasCrosstalk true, and metadata DETECTOR "S29" (the decimal ⟨12, 4⟩ is
0.0012, etc.). -/
theorem crosstalk_end_to_end_example :
    ((readFile ["ccd01A ccd01B 0.0012", "ccd01B ccd01A 0.0009",
        "ccd01A ccd02B 0.0003"]).toOption.bind (alookup "S29")).map DetEntry.coeffs =
      some ⟨Dec.zero, ⟨12, 4⟩, ⟨9, 4⟩, Dec.zero⟩ ∧
    ((readFile ["ccd01A ccd01B 0.0012", "ccd01B ccd01A 0.0009",
        "ccd01A ccd02B 0.0003"]).toOption.bind (alookup "S29")).bind
        (fun e => alookup "S30" e.interChip) =
      some ⟨Dec.zero, ⟨3, 4⟩, Dec.zero, Dec.zero⟩ ∧
    ((readFile ["ccd01A ccd01B 0.0012", "ccd01B ccd01A 0.0009",
        "ccd01A ccd02B 0.0003"]).toOption.bind (alookup "S29")).map
        DetEntry.hasCrosstalk = some true ∧
    ((readFile ["ccd01A ccd01B 0.0012", "ccd01B ccd01A 0.0009",
        "ccd01A ccd02B 0.0003"]).toOption.bind (alookup "S29")).map
        (fun e => e.metadata.DETECTOR) = some (some "S29") := by decide

/-- C3: the coefficient matrix `makeDetectorCrosstalk` hands to the
external constructor is the exact transpose of the matrix accumulated by
`readFile` (cell [i][j] of the handed matrix equals cell [j][i] of the
accumulated one, for every produced entry), and on a non-symmetric example
the handed matrix differs from the accumulated one, so the transpose is
required, not a no-op. -/
theorem transpose_contract :
    (∀ (lines : List String) (v : String) (i j : Fin 2),
      ((readFile lines).toOption.bind (alookup v)).map
          (fun e => (makeDetectorCrosstalk e).coeffs.get i j) =
        ((readFile lines).toOption.bind (alookup v)).map
          (fun e => e.coeffs.get j i)) ∧
    ((readFile ["ccd01A ccd01B 0.0012"]).toOption.bind (alookup "S29")).map
        (fun e => ((makeDetectorCrosstalk e).coeffs, e.coeffs)) =
      some (⟨Dec.zero, Dec.zero, ⟨12, 4⟩, Dec.zero⟩,
        ⟨Dec.zero, ⟨12, 4⟩, Dec.zero, Dec.zero⟩) ∧
    (⟨Dec.zero, Dec.zero, ⟨12, 4⟩, Dec.zero⟩ : Matrix2) ≠
      ⟨Dec.zero, ⟨12, 4⟩, Dec.zero, Dec.zero⟩ := by
  refine ⟨?_, by decide, by decide⟩
  intro lines v i j
  cases h : (readFile lines).toOption.bind (alookup v) with
  | none => rfl
  | some e => simp [makeDetectorCrosstalk, Matrix2.get_transpose]

/-- C5 counterexample: a whitespace-only line is not skipped; the file
with a blank first line raises IndexError with no entries accumulated,
although the same file with the blank line removed parses successfully. -/
theorem blank_line_counterexample :
    readFile [" ", "ccd01A ccd01B 0.0012"] = .error (PyError.indexError, []) ∧
    (readFile ["ccd01A ccd01B 0.0012"]).toOption.isSome = true := by decide

/-- C5 amended: blank (empty or whitespace-only) lines are NOT tolerated:
such a line is not a comment, splits into zero tokens, and the elem[0]
access raises IndexError, aborting the conversion at that line. -/
theorem blank_line_amended :
    ∀ (d : OutDict) (line : String), line.toList.all Char.isWhitespace = true →
      processLine d line = .error PyError.indexError := by
  intro d line h
  have hstrip : pyStrip line.toList = [] := by
    unfold pyStrip
    have h1 : line.toList.dropWhile Char.isWhitespace = [] := by
      rw [List.dropWhile_eq_nil_iff]
      intro x hx
      exact List.all_eq_true.mp h x hx
    rw [h1]
    rfl
  have hstrip' : pyStrip line.data = [] := hstrip
  simp [processLine, parseLine, hstrip, hstrip', pySplit, pySplitAux]

/-- Witness for the amended C5 at a concrete whitespace-only line. -/
theorem blank_line_amended_witness :
    processLine [] "  " = .error PyError.indexError :=
  blank_line_amended [] "  " (by decide)

/-- C6 counterexample: for the token "ccdB1A" the code decodes amp A (the
membership test for "A" runs first), although the first occurrence of "A"
or "B" in left-to-right scan order is "B". -/
theorem amp_scan_order_counterexample :
    ampOf "ccdB1A" = .ok 'A' ∧ specAmpFirstScan "ccdB1A" = some 'B' := by decide

/-- C6 amended: the decoded amp label is A whenever the token contains the
character A anywhere (regardless of any earlier B), otherwise B when it
contains B, otherwise RuntimeError "Unknown amp" is raised; matching is
exact and case-sensitive (lowercase a is not accepted), and the line
"ccd01X ccd02A 0.001" raises the unknown-amp error with no entry
created. -/
theorem amp_decode_amended :
    (∀ tok : String, tok.toList.contains 'A' = true → ampOf tok = .ok 'A') ∧
    (∀ tok : String, tok.toList.contains 'A' = false → tok.toList.contains 'B' = true →
      ampOf tok = .ok 'B') ∧
    (∀ tok : String, tok.toList.contains 'A' = false → tok.toList.contains 'B' = false →
      ampOf tok = .error (PyError.unknownAmp tok)) ∧
    readFile ["ccd01X ccd02A 0.001"] = .error (PyError.unknownAmp "ccd01X", []) ∧
    ampOf "ccd01a" = .error (PyError.unknownAmp "ccd01a") := by
  refine ⟨?_, ?_, ?_, by decide, by decide⟩
  · intro tok h
    have hmem : 'A' ∈ tok.data := by simpa using h
    simp [ampOf, hmem]
  · intro tok h1 h2
    have hnot : 'A' ∉ tok.data := by simpa using h1
    have hmem : 'B' ∈ tok.data := by simpa using h2
    simp [ampOf, hnot, hmem]
  · intro tok h1 h2
    have hnotA : 'A' ∉ tok.data := by simpa using h1
    have hnotB : 'B' ∉ tok.data := by simpa using h2
    simp [ampOf, hnotA, hnotB]

/-- Witness for the amended C6 at a token containing both letters with B
first. -/
theorem amp_decode_amended_witness : ampOf "BA" = .ok 'A' :=
  amp_decode_amended.1 "BA" (by decide)

/-- C7: a line whose victim or source token strips to a detector label
absent from the 62-entry detMap fails with KeyError naming that label
(the UnknownDetector error), stated for both token positions; concretely,
the single-line file "ccd99A ccd01A 0.001" errors with KeyError "ccd99"
and an empty output dictionary, so no entry is created for any
detector. -/
theorem unknown_detector_rejection :
    (∀ (d : OutDict) (line vTok sTok cTok : String) (c : Dec) (vC sC : Char),
      (pyStrip line.toList).head? ≠ some '#' →
      (pySplit (pyStrip line.toList)).get? 0 = some vTok →
      (pySplit (pyStrip line.toList)).get? 1 = some sTok →
      (pySplit (pyStrip line.toList)).get? 2 = some cTok →
      pyFloat cTok = some c →
      ampOf vTok = .ok vC →
      ampOf sTok = .ok sC →
      alookup (stripAmp vTok vC) detMap = none →
      processLine d line = .error (PyError.keyError (stripAmp vTok vC))) ∧
    (∀ (d : OutDict) (line vTok sTok cTok : String) (c : Dec) (vC sC : Char)
      (vDet : String),
      (pyStrip line.toList).head? ≠ some '#' →
      (pySplit (pyStrip line.toList)).get? 0 = some vTok →
      (pySplit (pyStrip line.toList)).get? 1 = some sTok →
      (pySplit (pyStrip line.toList)).get? 2 = some cTok →
      pyFloat cTok = some c →
      ampOf vTok = .ok vC →
      ampOf sTok = .ok sC →
      alookup (stripAmp vTok vC) detMap = some vDet →
      alookup (stripAmp sTok sC) detMap = none →
      processLine d line = .error (PyError.keyError (stripAmp sTok sC))) ∧
    readFile ["ccd99A ccd01A 0.001"] = .error (PyError.keyError "ccd99", []) := by
  refine ⟨?_, ?_, by decide⟩
  · intro d line vTok sTok cTok c vC sC hh h0 h1 h2 hf hav has hk
    unfold processLine
    rw [parseLine_residual hh h0 h1 h2]
    simp only [hf, hav, has, hk]
  · intro d line vTok sTok cTok c vC sC vDet hh h0 h1 h2 hf hav has hkv hks
    unfold processLine
    rw [parseLine_residual hh h0 h1 h2]
    simp only [hf, hav, has, hkv, hks]

/-- Witness for C7 applied to the concrete line "ccd99A ccd01A 0.001" on
the empty dictionary. -/
theorem unknown_detector_rejection_witness :
    processLine [] "ccd99A ccd01A 0.001" = .error (PyError.keyError "ccd99") :=
  unknown_detector_rejection.1 [] "ccd99A ccd01A 0.001" "ccd99A" "ccd01A" "0.001"
    ⟨1, 3⟩ 'A' 'A' (by decide) (by decide) (by decide) (by decide) (by decide)
    (by decide) (by decide) (by decide)

/-- C8: for a successfully parsed file, whenever one of its lines
addresses the cell (victim, source, victimAmp, sourceAmp) and no later
line addresses the same cell, the final cell value is exactly that line's
coefficient (last write wins); concretely, a file with two lines for the
same cell parses without any error or diagnostic and keeps only the
second coefficient. -/
theorem duplicate_cell_last_write_wins :
    (∀ (pre post : List String) (d : OutDict) (v s : String) (i j : ℕ)
      (l2 : String) (r2 : CrosstalkRecord),
      readFile (pre ++ l2 :: post) = .ok d →
      parseLine l2 = .ok (some r2) →
      targetsB r2 v s i j = true →
      (∀ l ∈ post, ∀ r, parseLine l = .ok (some r) → targetsB r v s i j = false) →
      cellO d v s i j = some r2.coeff) ∧
    readFile ["ccd01A ccd01B 0.0012", "ccd01A ccd01B 0.0009"] =
      .ok [("S29",
        { metadata := ⟨some "CROSSTALK", some "S29", some "UNKNOWN"⟩
          interChip := []
          crosstalkShape := (2, 2)
          hasCrosstalk := true
          nAmp := 2
          coeffs := ⟨Dec.zero, ⟨9, 4⟩, Dec.zero, Dec.zero⟩
          DETECTOR := some "S29"
          DETECTOR_SERIAL := some "UNKNOWN" })] := by
  refine ⟨?_, by decide⟩
  intro pre post d v s i j l2 r2 hread hp2 ht hlast
  unfold readFile at hread
  obtain ⟨d1, hd1, hrest⟩ := readFileAux_split hread
  rw [readFileAux_cons] at hrest
  cases hp : processLine d1 l2 with
  | error e => simp [hp] at hrest
  | ok d2 =>
    simp only [hp] at hrest
    have hcell : cellO d2 v s i j = some r2.coeff := cellO_processLine_target hp hp2 ht
    rcases cellO_fold_preserved post d2 d v s i j hrest hlast with heq | ⟨hnone, _⟩
    · exact heq.trans hcell
    · rw [hcell] at hnone
      cases hnone

/-- Witness for C8: the two-line duplicate file, where the later
coefficient 0.0009 is the one left in cell [0][1]. -/
theorem duplicate_cell_last_write_wins_witness :
    cellO [("S29",
      { metadata := ⟨some "CROSSTALK", some "S29", some "UNKNOWN"⟩
        interChip := []
        crosstalkShape := (2, 2)
        hasCrosstalk := true
        nAmp := 2
        coeffs := ⟨Dec.zero, ⟨9, 4⟩, Dec.zero, Dec.zero⟩
        DETECTOR := some "S29"
        DETECTOR_SERIAL := some "UNKNOWN" })] "S29" "S29" 0 1 = some ⟨9, 4⟩ :=
  duplicate_cell_last_write_wins.1 ["ccd01A ccd01B 0.0012"] []
    [("S29",
      { metadata := ⟨some "CROSSTALK", some "S29", some "UNKNOWN"⟩
        interChip := []
        crosstalkShape := (2, 2)
        hasCrosstalk := true
        nAmp := 2
        coeffs := ⟨Dec.zero, ⟨9, 4⟩, Dec.zero, Dec.zero⟩
        DETECTOR := some "S29"
        DETECTOR_SERIAL := some "UNKNOWN" })] "S29" "S29" 0 1
    "ccd01A ccd01B 0.0009" ⟨"S29", "S29", 0, 1, ⟨9, 4⟩⟩ (by decide) (by decide)
    (by decide) (by simp)

/-- C9: zero-fill invariant: in any successfully parsed file, a
coefficient cell addressed by no record of the file is either absent
(its entry or inter-chip matrix was never created) or holds exactly the
float64 zero: matrices are zero-initialized at creation and only
addressed cells are ever written. -/
theorem zero_fill_invariant :
    ∀ (lines : List String) (d : OutDict) (v s : String) (i j : ℕ),
      readFile lines = .ok d →
      (∀ l ∈ lines, ∀ r, parseLine l = .ok (some r) → targetsB r v s i j = false) →
      cellO d v s i j = none ∨ cellO d v s i j = some Dec.zero := by
  intro lines d v s i j hread hnt
  rcases cellO_fold_preserved lines [] d v s i j hread hnt with heq | ⟨_, hz⟩
  · left
    rw [heq]
    rfl
  · right
    exact hz

/-- Witness for C9 at the one-line file, for the never-addressed self
cell [0][0] of S29. -/
theorem zero_fill_invariant_witness :
    cellO [("S29",
      { metadata := ⟨some "CROSSTALK", some "S29", some "UNKNOWN"⟩
        interChip := []
        crosstalkShape := (2, 2)
        hasCrosstalk := true
        nAmp := 2
        coeffs := ⟨Dec.zero, ⟨12, 4⟩, Dec.zero, Dec.zero⟩
        DETECTOR := some "S29"
        DETECTOR_SERIAL := some "UNKNOWN" })] "S29" "S29" 0 0 = none ∨
    cellO [("S29",
      { metadata := ⟨some "CROSSTALK", some "S29", some "UNKNOWN"⟩
        interChip := []
        crosstalkShape := (2, 2)
        hasCrosstalk := true
        nAmp := 2
        coeffs := ⟨Dec.zero, ⟨12, 4⟩, Dec.zero, Dec.zero⟩
        DETECTOR := some "S29"
        DETECTOR_SERIAL := some "UNKNOWN" })] "S29" "S29" 0 0 = some Dec.zero :=
  zero_fill_invariant ["ccd01A ccd01B 0.0012"]
    [("S29",
      { metadata := ⟨some "CROSSTALK", some "S29", some "UNKNOWN"⟩
        interChip := []
        crosstalkShape := (2, 2)
        hasCrosstalk := true
        nAmp := 2
        coeffs := ⟨Dec.zero, ⟨12, 4⟩, Dec.zero, Dec.zero⟩
        DETECTOR := some "S29"
        DETECTOR_SERIAL := some "UNKNOWN" })] "S29" "S29" 0 0 (by decide)
    (by
      intro l hl r hr
      simp only [List.mem_singleton] at hl
      subst hl
      have h12 : parseLine "ccd01A ccd01B 0.0012" =
          .ok (some ⟨"S29", "S29", 0, 1, ⟨12, 4⟩⟩) := by decide
      have hrr : (⟨"S29", "S29", 0, 1, ⟨12, 4⟩⟩ : CrosstalkRecord) = r := by
        have := h12.symm.trans hr
        simpa using this
      rw [← hrr]
      decide)

/-- C10: per-line atomicity: if processing a line raises an error, the
dictionary carried by the raised error is exactly the fold of the fully
processed earlier lines — the failing line performs no partial mutation,
because all token extraction, coefficient parsing, amp resolution and
detector lookups of a line precede any write to the dictionary. -/
theorem per_line_atomicity :
    ∀ (pre : List String) (line : String) (rest : List String) (d : OutDict)
      (e : PyError),
      readFile pre = .ok d →
      processLine d line = .error e →
      readFile (pre ++ line :: rest) = .error (e, d) := by
  intro pre line rest d e hpre herr
  unfold readFile at hpre ⊢
  rw [readFileAux_append_ok hpre, readFileAux_cons]
  simp only [herr]

/-- Witness for C10: one good line, then an unknown-detector line; the
error carries exactly the entry built from the good line. -/
theorem per_line_atomicity_witness :
    readFile ["ccd01A ccd01B 0.0012", "ccd99A ccd01A 0.001", "x"] =
      .error (PyError.keyError "ccd99",
        [("S29",
          { metadata := ⟨some "CROSSTALK", some "S29", some "UNKNOWN"⟩
            interChip := []
            crosstalkShape := (2, 2)
            hasCrosstalk := true
            nAmp := 2
            coeffs := ⟨Dec.zero, ⟨12, 4⟩, Dec.zero, Dec.zero⟩
            DETECTOR := some "S29"
            DETECTOR_SERIAL := some "UNKNOWN" })]) :=
  per_line_atomicity ["ccd01A ccd01B 0.0012"] "ccd99A ccd01A 0.001" ["x"]
    [("S29",
      { metadata := ⟨some "CROSSTALK", some "S29", some "UNKNOWN"⟩
        interChip := []
        crosstalkShape := (2, 2)
        hasCrosstalk := true
        nAmp := 2
        coeffs := ⟨Dec.zero, ⟨12, 4⟩, Dec.zero, Dec.zero⟩
        DETECTOR := some "S29"
        DETECTOR_SERIAL := some "UNKNOWN" })] (PyError.keyError "ccd99")
    (by decide) (by decide)

/-- C4 counterexample: victim S29 appears only in an inter-chip record,
yet its metadata OBSTYPE key IS populated (it is set at entry creation),
refuting the claim that the listed metadata pairs are populated only once
a self-referential record has been seen and are unset for inter-chip-only
victims; DETECTOR and DETECTOR_SERIAL are indeed unset. -/
theorem metadata_gap_counterexample :
    ((readFile ["ccd01A ccd02B 0.0003"]).toOption.bind (alookup "S29")).map
        DetEntry.hasCrosstalk = some true ∧
    ((readFile ["ccd01A ccd02B 0.0003"]).toOption.bind (alookup "S29")).map
        (fun e => e.metadata.OBSTYPE) = some (some "CROSSTALK") ∧
    ((readFile ["ccd01A ccd02B 0.0003"]).toOption.bind (alookup "S29")).map
        (fun e => e.metadata.DETECTOR) = some none ∧
    ((readFile ["ccd01A ccd02B 0.0003"]).toOption.bind (alookup "S29")).map
        (fun e => e.metadata.DETECTOR_SERIAL) = some none ∧
    ((readFile ["ccd01A ccd02B 0.0003"]).toOption.bind (alookup "S29")).map
        DetEntry.DETECTOR = some none ∧
    ((readFile ["ccd01A ccd02B 0.0003"]).toOption.bind (alookup "S29")).map
        DetEntry.DETECTOR_SERIAL = some none := by decide

/-- C4 amended: every victim entry has hasCrosstalk true and metadata
OBSTYPE "CROSSTALK" (set at entry creation, even for inter-chip-only
victims); the DETECTOR and DETECTOR_SERIAL keys — metadata and top-level —
are populated exactly by self-referential records: they are all unset when
no line is a self record for the victim, and set to the canonical name and
"UNKNOWN" once some line is. -/
theorem metadata_population_amended :
    ∀ (lines : List String) (d : OutDict) (v : String) (e : DetEntry),
      readFile lines = .ok d → alookup v d = some e →
      e.hasCrosstalk = true ∧ e.metadata.OBSTYPE = some "CROSSTALK" ∧
      ((∀ l ∈ lines, ∀ r, parseLine l = .ok (some r) → r.victimDet = v →
          r.sourceDet ≠ v) →
        e.metadata.DETECTOR = none ∧ e.metadata.DETECTOR_SERIAL = none ∧
        e.DETECTOR = none ∧ e.DETECTOR_SERIAL = none) ∧
      ((∃ l ∈ lines, ∃ r, parseLine l = .ok (some r) ∧ r.victimDet = v ∧
          r.sourceDet = v) →
        e.metadata.DETECTOR = some v ∧ e.metadata.DETECTOR_SERIAL = some "UNKNOWN" ∧
        e.DETECTOR = some v ∧ e.DETECTOR_SERIAL = some "UNKNOWN") := by
  intro lines d v e hread he
  unfold readFile at hread
  have hA : ∀ w e', alookup w d = some e' →
      e'.hasCrosstalk = true ∧ e'.metadata.OBSTYPE = some "CROSSTALK" := by
    refine readFileAux_inv
      (fun d' => ∀ w e', alookup w d' = some e' →
        e'.hasCrosstalk = true ∧ e'.metadata.OBSTYPE = some "CROSSTALK")
      lines [] d hread ?_ ?_
    · intro d1 l d2 hm hp hq w e' he'
      rcases processLine_ok_inv hp with ⟨_, rfl⟩ | ⟨r, hr, rfl⟩
      · exact hq w e' he'
      · by_cases hw : w = r.victimDet
        · subst hw
          rw [alookup_applyRecord_victim] at he'
          injection he' with he'
          cases hold : alookup r.victimDet d1 with
          | some e0 =>
            rw [hold, Option.getD_some] at he'
            subst he'
            by_cases hb : r.sourceDet = r.victimDet
            · simpa [hb, selfWrite] using hq r.victimDet e0 hold
            · simpa [hb, interWrite] using hq r.victimDet e0 hold
          | none =>
            rw [hold, Option.getD_none] at he'
            subst he'
            by_cases hb : r.sourceDet = r.victimDet <;>
              simp [hb, selfWrite, interWrite, initEntry]
        · rw [alookup_applyRecord_ne _ _ _ hw] at he'
          exact hq w e' he'
    · intro w e' he'
      simp [alookup] at he'
  refine ⟨(hA v e he).1, (hA v e he).2, ?_, ?_⟩
  · intro hns
    have hB : ∀ e', alookup v d = some e' →
        e'.metadata.DETECTOR = none ∧ e'.metadata.DETECTOR_SERIAL = none ∧
        e'.DETECTOR = none ∧ e'.DETECTOR_SERIAL = none := by
      refine readFileAux_inv
        (fun d' => ∀ e', alookup v d' = some e' →
          e'.metadata.DETECTOR = none ∧ e'.metadata.DETECTOR_SERIAL = none ∧
          e'.DETECTOR = none ∧ e'.DETECTOR_SERIAL = none)
        lines [] d hread ?_ ?_
      · intro d1 l d2 hm hp hq e' he'
        rcases processLine_ok_inv hp with ⟨_, rfl⟩ | ⟨r, hr, rfl⟩
        · exact hq e' he'
        · by_cases hw : r.victimDet = v
          · have hbne : r.sourceDet ≠ v := hns l hm r hr hw
            have hb : ¬r.sourceDet = r.victimDet := fun hc => hbne (hc.trans hw)
            rw [← hw] at he'
            rw [alookup_applyRecord_victim] at he'
            injection he' with he'
            cases hold : alookup r.victimDet d1 with
            | some e0 =>
              rw [hold, Option.getD_some] at he'
              subst he'
              simpa [hb, interWrite] using hq e0 (hw ▸ hold)
            | none =>
              rw [hold, Option.getD_none] at he'
              subst he'
              simp [hb, interWrite, initEntry]
          · rw [alookup_applyRecord_ne _ _ _ (fun hc => hw hc.symm)] at he'
            exact hq e' he'
      · intro e' he'
        simp [alookup] at he'
    exact hB e he
  · rintro ⟨l, hl, r, hr, hrv, hrs⟩
    obtain ⟨pre, post, rfl⟩ := List.append_of_mem hl
    obtain ⟨d1, hd1, hrest⟩ := readFileAux_split hread
    rw [readFileAux_cons] at hrest
    cases hp : processLine d1 l with
    | error e1 => simp [hp] at hrest
    | ok d2 =>
      simp only [hp] at hrest
      have hset : ∃ e', alookup v d2 = some e' ∧
          e'.metadata.DETECTOR = some v ∧ e'.metadata.DETECTOR_SERIAL = some "UNKNOWN" ∧
          e'.DETECTOR = some v ∧ e'.DETECTOR_SERIAL = some "UNKNOWN" := by
        rcases processLine_ok_inv hp with ⟨hn, _⟩ | ⟨r', hr', rfl⟩
        · exact absurd (hr.symm.trans hn) (by simp)
        · have hrr : r' = r := by
            have := hr.symm.trans hr'
            simpa using this.symm
          rw [hrr]
          have hb : r.sourceDet = r.victimDet := hrs.trans hrv.symm
          rw [← hrv]
          rw [alookup_applyRecord_victim]
          exact ⟨_, rfl, by simp [hb, selfWrite]⟩
      have hkeep : ∃ e', alookup v d = some e' ∧
          e'.metadata.DETECTOR = some v ∧ e'.metadata.DETECTOR_SERIAL = some "UNKNOWN" ∧
          e'.DETECTOR = some v ∧ e'.DETECTOR_SERIAL = some "UNKNOWN" := by
        refine readFileAux_inv
          (fun d' => ∃ e', alookup v d' = some e' ∧
            e'.metadata.DETECTOR = some v ∧
            e'.metadata.DETECTOR_SERIAL = some "UNKNOWN" ∧
            e'.DETECTOR = some v ∧ e'.DETECTOR_SERIAL = some "UNKNOWN")
          post d2 d hrest ?_ hset
        intro d1' l' d2' hm' hp' hq'
        obtain ⟨e0, he0, hf0⟩ := hq'
        rcases processLine_ok_inv hp' with ⟨_, rfl⟩ | ⟨r', hr', rfl⟩
        · exact ⟨e0, he0, hf0⟩
        · by_cases hw : r'.victimDet = v
          · rw [← hw] at he0 hf0 ⊢
            rw [alookup_applyRecord_victim]
            by_cases hb : r'.sourceDet = r'.victimDet
            · exact ⟨_, rfl, by simp [hb, selfWrite]⟩
            · refine ⟨_, rfl, ?_⟩
              simpa [hb, interWrite, he0] using hf0
          · refine ⟨e0, ?_, hf0⟩
            rw [alookup_applyRecord_ne _ _ _ (fun hc => hw hc.symm)]
            exact he0
      obtain ⟨e', he', hf⟩ := hkeep
      rw [he] at he'
      injection he' with hee
      rw [hee]
      exact hf

/-- Witness for the amended C4 on the inter-chip-only one-line file. -/
theorem metadata_population_amended_witness :
    ({ metadata := ⟨some "CROSSTALK", none, none⟩
       interChip := [("S30", ⟨Dec.zero, ⟨3, 4⟩, Dec.zero, Dec.zero⟩)]
       crosstalkShape := (2, 2)
       hasCrosstalk := true
       nAmp := 2
       coeffs := Matrix2.zero
       DETECTOR := none
       DETECTOR_SERIAL := none } : DetEntry).hasCrosstalk = true ∧
    ({ metadata := ⟨some "CROSSTALK", none, none⟩
       interChip := [("S30", ⟨Dec.zero, ⟨3, 4⟩, Dec.zero, Dec.zero⟩)]
       crosstalkShape := (2, 2)
       hasCrosstalk := true
       nAmp := 2
       coeffs := Matrix2.zero
       DETECTOR := none
       DETECTOR_SERIAL := none } : DetEntry).metadata.OBSTYPE = some "CROSSTALK" := by
  have h := metadata_population_amended ["ccd01A ccd02B 0.0003"]
    [("S29",
      { metadata := ⟨some "CROSSTALK", none, none⟩
        interChip := [("S30", ⟨Dec.zero, ⟨3, 4⟩, Dec.zero, Dec.zero⟩)]
        crosstalkShape := (2, 2)
        hasCrosstalk := true
        nAmp := 2
        coeffs := Matrix2.zero
        DETECTOR := none
        DETECTOR_SERIAL := none })] "S29"
    { metadata := ⟨some "CROSSTALK", none, none⟩
      interChip := [("S30", ⟨Dec.zero, ⟨3, 4⟩, Dec.zero, Dec.zero⟩)]
      crosstalkShape := (2, 2)
      hasCrosstalk := true
      nAmp := 2
      coeffs := Matrix2.zero
      DETECTOR := none
      DETECTOR_SERIAL := none } (by decide) (by decide)
  exact ⟨h.1, h.2.1⟩
